import Mathlib

/-!
Shallow embedding of `src/nestegg_montecarlo.py`, a Monte Carlo retirement
nest-egg projector.  Python floats are modelled as exact rationals (ℚ);
numpy arrays as Lean lists; the numpy global pseudorandom generator as an
explicit stream of raw draws threaded through the computation.
-/

namespace Nestegg

/-! ## Configuration constants (lines 16-31 of the source) -/

def YEARS_REMAINING : ℕ := 110 - 25

def STARTING_EQUITY : ℚ := 60000

def STARTING_CASH : ℚ := 60000

def AFTER_TAX_SALARY : ℚ := 100000

def FIXED_EXPENSES : ℚ := 50000

def ANNUAL_DRAWDOWN : ℚ := FIXED_EXPENSES + 0

def SALARY_GROWTH_RATE : ℚ := 2/100

/-- The `PORTFOLIO_DISTRIBUTION` dict: its two keys are the record fields. -/
structure PortfolioDistribution where
  cash : ℚ
  equity : ℚ
deriving DecidableEq

def PORTFOLIO_DISTRIBUTION : PortfolioDistribution := ⟨1/10, 9/10⟩

def SNP_DIV_YIELD : ℚ := 14/1000

def INTEREST_RATE : ℚ := 3/100

def TAIL_RISK_COST : ℚ := 30000

def TAIL_RISK_PROBABILITY : ℚ := 1/30

def RUNS : ℕ := 1

/-! ## Portfolio recurrence engine (`portfolio_annuity`, lines 35-74) -/

/-- The six per-year output sequences returned by `portfolio_annuity`
(the dict at lines 67-74 of the source). -/
structure Portfolio where
  cash : List ℚ
  equity : List ℚ
  dividend : List ℚ
  interest : List ℚ
  snp_return : List ℚ
  tail_risk : List ℚ
deriving DecidableEq

/-- Python `zip` over the four input sequences (line 47): stops at the
shortest sequence. -/
def zip4 : List ℚ → List ℚ → List ℚ → List ℚ → List (ℚ × ℚ × ℚ × ℚ)
  | s :: ss, p :: ps, d :: ds, t :: ts => (s, p, d, t) :: zip4 ss ps ds ts
  | _, _, _, _ => []

/-- The accumulation loop of `portfolio_annuity` (lines 47-59): one step per
zipped `(sal, snp_perc, dd, tail)` entry, threading the cash and equity
balances. -/
def annuityLoop (cash equity : ℚ) : List (ℚ × ℚ × ℚ × ℚ) → Portfolio
  | [] => ⟨[], [], [], [], [], []⟩
  | (sal, snp_perc, dd, tail) :: rest =>
    let dividend := equity * SNP_DIV_YIELD
    let interest := cash * INTEREST_RATE
    let snp_return := equity * snp_perc
    let annual_distribution := sal + dividend + interest - tail - dd
    let cash1 := cash + annual_distribution * PORTFOLIO_DISTRIBUTION.cash
    let equity1 := equity + (snp_return + annual_distribution * PORTFOLIO_DISTRIBUTION.equity)
    let p := annuityLoop cash1 equity1 rest
    ⟨cash1 :: p.cash, equity1 :: p.equity, dividend :: p.dividend,
     interest :: p.interest, snp_return :: p.snp_return, tail :: p.tail_risk⟩

/-- `portfolio_annuity(salary, snp_return_percent, drawdown, tail_risk)`:
starts from the fixed balances and folds the zipped inputs. -/
def portfolio_annuity (salary snp_return_percent drawdown tail_risk : List ℚ) :
    Portfolio :=
  annuityLoop STARTING_CASH STARTING_EQUITY
    (zip4 salary snp_return_percent drawdown tail_risk)

/-! ## Pseudorandom source

`np.random` is a single global deterministic stream.  We model its state as
the infinite sequence of raw draws still to come; drawing consumes the head.
The distribution shapes (normal, Bernoulli) are modelled in location-scale /
inverse-threshold form over the raw draws: the claims depend only on the
stream being a deterministic function of the seed and consumed in order,
never on the numeric law of the draws. -/

def RNG : Type := ℕ → ℚ

/-- Consume one raw draw from the stream. -/
def draw (g : RNG) : ℚ × RNG := (g 0, fun n => g (n + 1))

/-- Modelled from the spec: `np.random.seed(s)` — the numpy generator
(whose internals are outside this repository) is a deterministic stream
fully determined by the seed.  Which values it holds is irrelevant to the
claims; the determinism is all that is used. -/
def npSeed (s : ℕ) : RNG := fun n => ((s + n : ℕ) : ℚ)

/-- `np.random.normal(loc, scale, size)`: `size` draws, each the raw draw
placed in location-scale position. -/
def normalDraws (loc scale : ℚ) : ℕ → RNG → List ℚ × RNG
  | 0, g => ([], g)
  | n + 1, g =>
    let rest := normalDraws loc scale n (draw g).2
    ((loc + scale * (draw g).1) :: rest.1, rest.2)

/-- `np.random.binomial(n=1, p, size)`: `size` Bernoulli indicators, each 0
or 1, by thresholding a raw draw at `p`. -/
def bernoulliDraws (p : ℚ) : ℕ → RNG → List ℚ × RNG
  | 0, g => ([], g)
  | n + 1, g =>
    let rest := bernoulliDraws p n (draw g).2
    ((if (draw g).1 < p then (1 : ℚ) else 0) :: rest.1, rest.2)

/-! ## Monte Carlo driver (`monte_carlo`, lines 77-115) -/

/-- `np.cumprod` with a running accumulator. -/
def cumprodFrom (acc : ℚ) : List ℚ → List ℚ
  | [] => []
  | x :: xs => (acc * x) :: cumprodFrom (acc * x) xs

/-- `np.cumprod`: entry `t` is the product of entries `0..t` of the input. -/
def cumprod (xs : List ℚ) : List ℚ := cumprodFrom 1 xs

/-- Line 89: `drawdown = ANNUAL_DRAWDOWN * np.cumprod(1 + inflation)`. -/
def drawdownSeq (inflation : List ℚ) : List ℚ :=
  (cumprod (inflation.map (fun x => 1 + x))).map (fun x => ANNUAL_DRAWDOWN * x)

/-- Line 90: `salary_growth = np.repeat(1 + SALARY_GROWTH_RATE, YEARS_REMAINING)`. -/
def salaryGrowthSeq : List ℚ :=
  List.replicate YEARS_REMAINING (1 + SALARY_GROWTH_RATE)

/-- Line 91: `salary = AFTER_TAX_SALARY * np.cumprod(salary_growth)`. -/
def salarySeq : List ℚ :=
  (cumprod salaryGrowthSeq).map (fun x => AFTER_TAX_SALARY * x)

/-- One entry of the `simiulations` list (lines 96-114): the per-run result
record with all of its index-aligned sequences. -/
structure Run where
  simulation : ℕ
  year : List ℕ
  nest_egg : List ℚ
  cash_position : List ℚ
  equity_position : List ℚ
  salary : List ℚ
  salary_growth : List ℚ
  div_yield : List ℚ
  div_return : List ℚ
  snp_return : List ℚ
  snp_return_percent : List ℚ
  interest_return : List ℚ
  inflation : List ℚ
  living_expenses : List ℚ
  tail_risk : List ℚ

/-- Line 87: the per-run market-return draw, consuming the stream first. -/
def snpSeq (g : RNG) : List ℚ :=
  (normalDraws (12/100) (2/10) YEARS_REMAINING g).1

/-- Stream state after the line-87 draw. -/
def gAfterSnp (g : RNG) : RNG :=
  (normalDraws (12/100) (2/10) YEARS_REMAINING g).2

/-- Line 88: the per-run inflation draw, consuming the stream second. -/
def inflSeq (g : RNG) : List ℚ :=
  (normalDraws (3/100) (35/1000) YEARS_REMAINING (gAfterSnp g)).1

/-- Stream state after the line-88 draw. -/
def gAfterInfl (g : RNG) : RNG :=
  (normalDraws (3/100) (35/1000) YEARS_REMAINING (gAfterSnp g)).2

/-- Line 92: the Bernoulli indicator draw, consuming the stream third. -/
def tailIndicators (g : RNG) : List ℚ :=
  (bernoulliDraws TAIL_RISK_PROBABILITY YEARS_REMAINING (gAfterInfl g)).1

/-- Stream state after the line-92 draw (the state the next run starts from). -/
def gAfterTail (g : RNG) : RNG :=
  (bernoulliDraws TAIL_RISK_PROBABILITY YEARS_REMAINING (gAfterInfl g)).2

/-- Line 92: `tail_risk = TAIL_RISK_COST * np.random.binomial(...)`. -/
def tailSeq (g : RNG) : List ℚ :=
  (tailIndicators g).map (fun b => TAIL_RISK_COST * b)

/-- Line 95: `year = np.array(list(range(YEARS_REMAINING))) + 1`. -/
def yearSeq : List ℕ := (List.range YEARS_REMAINING).map (fun k => k + 1)

/-- One iteration of the `for i in range(runs)` loop (lines 86-114): draw the
scenario from the stream (market return, then inflation, then tail
indicators), derive the deterministic sequences, run the recurrence engine,
assemble the Run record; returns the record and the advanced stream state. -/
def oneRun (i : ℕ) (g : RNG) : Run × RNG :=
  let portfolio :=
    portfolio_annuity salarySeq (snpSeq g) (drawdownSeq (inflSeq g)) (tailSeq g)
  (⟨i, yearSeq,
    List.zipWith (· + ·) portfolio.cash portfolio.equity,
    portfolio.cash,
    portfolio.equity,
    salarySeq,
    salaryGrowthSeq,
    List.replicate YEARS_REMAINING SNP_DIV_YIELD,
    portfolio.dividend,
    portfolio.snp_return,
    snpSeq g,
    portfolio.interest,
    inflSeq g,
    drawdownSeq (inflSeq g),
    portfolio.tail_risk⟩, gAfterTail g)

/-- The driver loop from stream state `g`, next run index `i`, `count` runs
remaining. -/
def monteCarloFrom (g : RNG) (i : ℕ) : ℕ → List Run
  | 0 => []
  | n + 1 => (oneRun i g).1 :: monteCarloFrom (oneRun i g).2 (i + 1) n

/-- `monte_carlo(runs)`: seeds the global generator with 42 (line 82) —
discarding whatever ambient stream state existed — then executes the runs
in order against the single shared stream. -/
def monte_carlo (runs : ℕ) (_ambient : RNG) : List Run :=
  monteCarloFrom (npSeed 42) 0 runs

/-! ## Startup validation (line 33) and whole-program execution -/

/-- An all-zero horizon-length scenario sequence (used to instantiate
universally quantified statements on a concrete input). -/
def zeroSeq : List ℚ := List.replicate YEARS_REMAINING 0

/-- The module-level assert (line 33): the portfolio distribution must sum
to exactly 1, otherwise the process aborts with the configuration error
message (the source's misspelling is kept). -/
def check_distribution (dist : PortfolioDistribution) : Except String Unit :=
  if dist.cash + dist.equity = 1 then Except.ok ()
  else Except.error "Porftolio distribution does not sum to 1"

/-- Module execution: the line-33 assert runs at import time, before the
`monte_carlo()` call at line 123; a failed check aborts before any run and
produces no batch at all. -/
def runProgram (dist : PortfolioDistribution) (runs : ℕ) (ambient : RNG) :
    Except String (List Run) :=
  match check_distribution dist with
  | Except.error e => Except.error e
  | Except.ok _ => Except.ok (monte_carlo runs ambient)

/-! ## Helper lemmas -/

lemma zip4_length (s p d t : List ℚ) :
    (zip4 s p d t).length = min (min (min s.length p.length) d.length) t.length := by
  induction s generalizing p d t with
  | nil => cases p <;> cases d <;> cases t <;> simp [zip4]
  | cons a ss ih =>
    cases p with
    | nil => simp [zip4]
    | cons b ps =>
      cases d with
      | nil => simp [zip4]
      | cons c ds =>
        cases t with
        | nil => simp [zip4]
        | cons e ts => simp only [zip4, List.length_cons, ih]; omega

lemma annuityLoop_lengths (l : List (ℚ × ℚ × ℚ × ℚ)) (C E : ℚ) :
    (annuityLoop C E l).cash.length = l.length ∧
    (annuityLoop C E l).equity.length = l.length ∧
    (annuityLoop C E l).dividend.length = l.length ∧
    (annuityLoop C E l).interest.length = l.length ∧
    (annuityLoop C E l).snp_return.length = l.length ∧
    (annuityLoop C E l).tail_risk.length = l.length := by
  induction l generalizing C E with
  | nil => simp [annuityLoop]
  | cons x rest ih =>
    obtain ⟨sal, snp, dd, tail⟩ := x
    simp only [annuityLoop, List.length_cons]
    exact ⟨by simp [(ih _ _).1], by simp [(ih _ _).2.1], by simp [(ih _ _).2.2.1],
      by simp [(ih _ _).2.2.2.1], by simp [(ih _ _).2.2.2.2.1], by simp [(ih _ _).2.2.2.2.2]⟩

lemma portfolio_annuity_lengths (s p d t : List ℚ) :
    (portfolio_annuity s p d t).cash.length =
      min (min (min s.length p.length) d.length) t.length ∧
    (portfolio_annuity s p d t).equity.length =
      min (min (min s.length p.length) d.length) t.length ∧
    (portfolio_annuity s p d t).dividend.length =
      min (min (min s.length p.length) d.length) t.length ∧
    (portfolio_annuity s p d t).interest.length =
      min (min (min s.length p.length) d.length) t.length ∧
    (portfolio_annuity s p d t).snp_return.length =
      min (min (min s.length p.length) d.length) t.length ∧
    (portfolio_annuity s p d t).tail_risk.length =
      min (min (min s.length p.length) d.length) t.length := by
  have h := annuityLoop_lengths (zip4 s p d t) STARTING_CASH STARTING_EQUITY
  rw [zip4_length] at h
  exact h

lemma normalDraws_fst_length (loc scale : ℚ) (n : ℕ) (g : RNG) :
    (normalDraws loc scale n g).1.length = n := by
  induction n generalizing g with
  | zero => rfl
  | succ n ih => simp [normalDraws, ih]

lemma bernoulliDraws_fst_length (p : ℚ) (n : ℕ) (g : RNG) :
    (bernoulliDraws p n g).1.length = n := by
  induction n generalizing g with
  | zero => rfl
  | succ n ih => simp [bernoulliDraws, ih]

lemma cumprodFrom_length (acc : ℚ) (xs : List ℚ) :
    (cumprodFrom acc xs).length = xs.length := by
  induction xs generalizing acc with
  | nil => rfl
  | cons x xs ih => simp [cumprodFrom, ih]

lemma cumprod_length (xs : List ℚ) : (cumprod xs).length = xs.length :=
  cumprodFrom_length 1 xs

lemma drawdownSeq_length (infl : List ℚ) : (drawdownSeq infl).length = infl.length := by
  simp [drawdownSeq, cumprod_length]

lemma salaryGrowthSeq_length : salaryGrowthSeq.length = YEARS_REMAINING := by
  simp [salaryGrowthSeq]

lemma salarySeq_length : salarySeq.length = YEARS_REMAINING := by
  simp [salarySeq, cumprod_length, salaryGrowthSeq]

lemma portfolio_annuity_lengths_eq (s p d t : List ℚ) (n : ℕ)
    (hs : s.length = n) (hp : p.length = n) (hd : d.length = n) (ht : t.length = n) :
    (portfolio_annuity s p d t).cash.length = n ∧
    (portfolio_annuity s p d t).equity.length = n ∧
    (portfolio_annuity s p d t).dividend.length = n ∧
    (portfolio_annuity s p d t).interest.length = n ∧
    (portfolio_annuity s p d t).snp_return.length = n ∧
    (portfolio_annuity s p d t).tail_risk.length = n := by
  have h := portfolio_annuity_lengths s p d t
  rw [hs, hp, hd, ht] at h
  simpa using h

lemma snpSeq_length (g : RNG) : (snpSeq g).length = YEARS_REMAINING :=
  normalDraws_fst_length _ _ _ _

lemma inflSeq_length (g : RNG) : (inflSeq g).length = YEARS_REMAINING :=
  normalDraws_fst_length _ _ _ _

lemma tailSeq_length (g : RNG) : (tailSeq g).length = YEARS_REMAINING := by
  simp [tailSeq, tailIndicators, bernoulliDraws_fst_length]

lemma yearSeq_length : yearSeq.length = YEARS_REMAINING := by
  simp [yearSeq]

lemma oneRun_portfolio_lengths (g : RNG) :
    (portfolio_annuity salarySeq (snpSeq g) (drawdownSeq (inflSeq g)) (tailSeq g)).cash.length
      = YEARS_REMAINING ∧
    (portfolio_annuity salarySeq (snpSeq g) (drawdownSeq (inflSeq g)) (tailSeq g)).equity.length
      = YEARS_REMAINING ∧
    (portfolio_annuity salarySeq (snpSeq g) (drawdownSeq (inflSeq g)) (tailSeq g)).dividend.length
      = YEARS_REMAINING ∧
    (portfolio_annuity salarySeq (snpSeq g) (drawdownSeq (inflSeq g)) (tailSeq g)).interest.length
      = YEARS_REMAINING ∧
    (portfolio_annuity salarySeq (snpSeq g) (drawdownSeq (inflSeq g)) (tailSeq g)).snp_return.length
      = YEARS_REMAINING ∧
    (portfolio_annuity salarySeq (snpSeq g) (drawdownSeq (inflSeq g)) (tailSeq g)).tail_risk.length
      = YEARS_REMAINING :=
  portfolio_annuity_lengths_eq _ _ _ _ _ salarySeq_length (snpSeq_length g)
    (by rw [drawdownSeq_length, inflSeq_length]) (tailSeq_length g)

lemma oneRun_lengths (i : ℕ) (g : RNG) :
    ((oneRun i g).1).year.length = YEARS_REMAINING ∧
    ((oneRun i g).1).nest_egg.length = YEARS_REMAINING ∧
    ((oneRun i g).1).cash_position.length = YEARS_REMAINING ∧
    ((oneRun i g).1).equity_position.length = YEARS_REMAINING ∧
    ((oneRun i g).1).salary.length = YEARS_REMAINING ∧
    ((oneRun i g).1).salary_growth.length = YEARS_REMAINING ∧
    ((oneRun i g).1).div_yield.length = YEARS_REMAINING ∧
    ((oneRun i g).1).div_return.length = YEARS_REMAINING ∧
    ((oneRun i g).1).snp_return.length = YEARS_REMAINING ∧
    ((oneRun i g).1).snp_return_percent.length = YEARS_REMAINING ∧
    ((oneRun i g).1).interest_return.length = YEARS_REMAINING ∧
    ((oneRun i g).1).inflation.length = YEARS_REMAINING ∧
    ((oneRun i g).1).living_expenses.length = YEARS_REMAINING ∧
    ((oneRun i g).1).tail_risk.length = YEARS_REMAINING := by
  obtain ⟨h1, h2, h3, h4, h5, h6⟩ := oneRun_portfolio_lengths g
  refine ⟨yearSeq_length, ?_, h1, h2, salarySeq_length, salaryGrowthSeq_length,
    List.length_replicate _ _, h3, h5, snpSeq_length g, h4, inflSeq_length g,
    by rw [show ((oneRun i g).1).living_expenses = drawdownSeq (inflSeq g) from rfl,
      drawdownSeq_length, inflSeq_length], h6⟩
  show (List.zipWith (· + ·)
    (portfolio_annuity salarySeq (snpSeq g) (drawdownSeq (inflSeq g)) (tailSeq g)).cash
    (portfolio_annuity salarySeq (snpSeq g) (drawdownSeq (inflSeq g)) (tailSeq g)).equity).length
    = YEARS_REMAINING
  rw [List.length_zipWith, h1, h2, Nat.min_self]

lemma cumprodFrom_getD (xs : List ℚ) (acc : ℚ) (t : ℕ) (ht : t < xs.length) :
    (cumprodFrom acc xs).getD t 0 = acc * (xs.take (t + 1)).prod := by
  induction xs generalizing acc t with
  | nil => simp at ht
  | cons x xs ih =>
    cases t with
    | zero => simp [cumprodFrom]
    | succ t =>
      have ht' : t < xs.length := by simpa using ht
      simp only [cumprodFrom, List.getD_cons_succ, ih (acc * x) t ht',
        List.take_succ_cons, List.prod_cons]
      ring

lemma cumprod_getD (xs : List ℚ) (t : ℕ) (ht : t < xs.length) :
    (cumprod xs).getD t 0 = (xs.take (t + 1)).prod := by
  rw [cumprod, cumprodFrom_getD xs 1 t ht, one_mul]

lemma getD_map_of_lt (f : ℚ → ℚ) (l : List ℚ) (t : ℕ) (ht : t < l.length) (d : ℚ) :
    (l.map f).getD t d = f (l.getD t 0) := by
  induction l generalizing t with
  | nil => simp at ht
  | cons x xs ih =>
    cases t with
    | zero => simp
    | succ t => simpa using ih t (by simpa using ht)

lemma getD_mem {l : List ℚ} {n : ℕ} (h : n < l.length) (d : ℚ) : l.getD n d ∈ l := by
  induction l generalizing n with
  | nil => simp at h
  | cons x xs ih =>
    cases n with
    | zero => simp
    | succ n => simpa using Or.inr (ih (by simpa using h))

lemma bernoulliDraws_mem (p : ℚ) (n : ℕ) (g : RNG) {v : ℚ}
    (hv : v ∈ (bernoulliDraws p n g).1) : v = 0 ∨ v = 1 := by
  induction n generalizing g with
  | zero => simp [bernoulliDraws] at hv
  | succ n ih =>
    simp only [bernoulliDraws, List.mem_cons] at hv
    rcases hv with h | h
    · by_cases hc : (draw g).1 < p
      · right; simpa [hc] using h
      · left; simpa [hc] using h
    · exact ih _ h

lemma annuityLoop_tail_risk_eq (l : List (ℚ × ℚ × ℚ × ℚ)) (C E : ℚ) :
    (annuityLoop C E l).tail_risk = l.map (fun e => e.2.2.2) := by
  induction l generalizing C E with
  | nil => rfl
  | cons x rest ih =>
    obtain ⟨sal, snp, dd, tail⟩ := x
    simp [annuityLoop, ih]

lemma mem_zip4_fourth {s p d t : List ℚ} {e : ℚ × ℚ × ℚ × ℚ}
    (he : e ∈ zip4 s p d t) : e.2.2.2 ∈ t := by
  induction s generalizing p d t with
  | nil => cases p <;> cases d <;> cases t <;> simp [zip4] at he
  | cons a ss ih =>
    cases p with
    | nil => simp [zip4] at he
    | cons b ps =>
      cases d with
      | nil => simp [zip4] at he
      | cons c ds =>
        cases t with
        | nil => simp [zip4] at he
        | cons f ts =>
          simp only [zip4, List.mem_cons] at he
          rcases he with rfl | he
          · exact List.mem_cons_self _ _
          · exact List.mem_cons_of_mem _ (ih he)

lemma zip4_getD (s p d t : List ℚ) (k : ℕ) (hks : k < s.length) (hkp : k < p.length)
    (hkd : k < d.length) (hkt : k < t.length) :
    (zip4 s p d t).getD k (0, 0, 0, 0) =
      (s.getD k 0, p.getD k 0, d.getD k 0, t.getD k 0) := by
  induction s generalizing p d t k with
  | nil => simp at hks
  | cons a ss ih =>
    cases p with
    | nil => simp at hkp
    | cons b ps =>
      cases d with
      | nil => simp at hkd
      | cons c ds =>
        cases t with
        | nil => simp at hkt
        | cons f ts =>
          cases k with
          | zero => rfl
          | succ k =>
            simp only [zip4, List.getD_cons_succ]
            exact ih ps ds ts k (by simpa using hks) (by simpa using hkp)
              (by simpa using hkd) (by simpa using hkt)

lemma annuityLoop_nest_head (C E : ℚ) (x : ℚ × ℚ × ℚ × ℚ)
    (rest : List (ℚ × ℚ × ℚ × ℚ)) :
    (annuityLoop C E (x :: rest)).cash.getD 0 0 +
      (annuityLoop C E (x :: rest)).equity.getD 0 0 =
    C + E + (annuityLoop C E (x :: rest)).snp_return.getD 0 0 +
      (x.1 + (annuityLoop C E (x :: rest)).dividend.getD 0 0 +
        (annuityLoop C E (x :: rest)).interest.getD 0 0 - x.2.2.2 - x.2.2.1) := by
  obtain ⟨sal, snp, dd, tail⟩ := x
  simp only [annuityLoop, List.getD_cons_zero, PORTFOLIO_DISTRIBUTION]
  ring

lemma annuityLoop_nest_step (l : List (ℚ × ℚ × ℚ × ℚ)) (C E : ℚ) (k : ℕ)
    (hk : k + 1 < l.length) :
    (annuityLoop C E l).cash.getD (k + 1) 0 +
      (annuityLoop C E l).equity.getD (k + 1) 0 =
    ((annuityLoop C E l).cash.getD k 0 + (annuityLoop C E l).equity.getD k 0) +
      (annuityLoop C E l).snp_return.getD (k + 1) 0 +
      ((l.getD (k + 1) (0, 0, 0, 0)).1 +
        (annuityLoop C E l).dividend.getD (k + 1) 0 +
        (annuityLoop C E l).interest.getD (k + 1) 0 -
        (l.getD (k + 1) (0, 0, 0, 0)).2.2.2 - (l.getD (k + 1) (0, 0, 0, 0)).2.2.1) := by
  induction l generalizing C E k with
  | nil => simp at hk
  | cons x rest ih =>
    obtain ⟨sal, snp, dd, tail⟩ := x
    cases k with
    | zero =>
      cases rest with
      | nil => simp at hk
      | cons y rest' =>
        obtain ⟨ys, yp, yd, yt⟩ := y
        have h := annuityLoop_nest_head
          (C + (sal + E * SNP_DIV_YIELD + C * INTEREST_RATE - tail - dd) *
            PORTFOLIO_DISTRIBUTION.cash)
          (E + (E * snp + (sal + E * SNP_DIV_YIELD + C * INTEREST_RATE - tail - dd) *
            PORTFOLIO_DISTRIBUTION.equity))
          (ys, yp, yd, yt) rest'
        simp only [annuityLoop, List.getD_cons_succ, List.getD_cons_zero] at h ⊢
        linarith [h]
    | succ k =>
      have hk' : k + 1 < rest.length := by simpa using hk
      have h := ih
        (C + (sal + E * SNP_DIV_YIELD + C * INTEREST_RATE - tail - dd) *
          PORTFOLIO_DISTRIBUTION.cash)
        (E + (E * snp + (sal + E * SNP_DIV_YIELD + C * INTEREST_RATE - tail - dd) *
          PORTFOLIO_DISTRIBUTION.equity))
        k hk'
      simp only [annuityLoop, List.getD_cons_succ] at h ⊢
      linarith [h]

lemma mem_monteCarloFrom {r : Run} {g : RNG} {i n : ℕ}
    (hr : r ∈ monteCarloFrom g i n) : ∃ (j : ℕ) (h : RNG), r = (oneRun j h).1 := by
  induction n generalizing g i with
  | zero => simp [monteCarloFrom] at hr
  | succ n ih =>
    simp only [monteCarloFrom, List.mem_cons] at hr
    rcases hr with hr | hr
    · exact ⟨i, g, hr⟩
    · exact ih hr

/-! ## Theorems -/

/-- C1: the per-year step of `portfolio_annuity` computes dividend
`E * dividend_yield`, interest `C * interest_rate`, capital return
`E * market_return`, net distribution `sal + dividend + interest - tail - dd`,
`C_next = C + net * cash_fraction`, `E_next = E + capital_return +
net * equity_fraction`, with no floor or clamp; and on the zero-return,
zero-tail, zero-salary scenario with drawdown 50000 the year-1 outputs are
dividend 840, interest 1800, net distribution -47360, cash 55264,
equity 17376. -/
theorem portfolio_annuity_step_and_year1 :
    (∀ (C E sal snp dd tail : ℚ) (rest : List (ℚ × ℚ × ℚ × ℚ)),
      (annuityLoop C E ((sal, snp, dd, tail) :: rest)).dividend.head? =
        some (E * SNP_DIV_YIELD) ∧
      (annuityLoop C E ((sal, snp, dd, tail) :: rest)).interest.head? =
        some (C * INTEREST_RATE) ∧
      (annuityLoop C E ((sal, snp, dd, tail) :: rest)).snp_return.head? =
        some (E * snp) ∧
      (annuityLoop C E ((sal, snp, dd, tail) :: rest)).cash.head? =
        some (C + (sal + E * SNP_DIV_YIELD + C * INTEREST_RATE - tail - dd) *
          PORTFOLIO_DISTRIBUTION.cash) ∧
      (annuityLoop C E ((sal, snp, dd, tail) :: rest)).equity.head? =
        some (E + (E * snp + (sal + E * SNP_DIV_YIELD + C * INTEREST_RATE - tail - dd) *
          PORTFOLIO_DISTRIBUTION.equity))) ∧
    (portfolio_annuity [0] [0] [50000] [0]).dividend = [840] ∧
    (portfolio_annuity [0] [0] [50000] [0]).interest = [1800] ∧
    ((0 : ℚ) + 840 + 1800 - 0 - 50000 = -47360) ∧
    (portfolio_annuity [0] [0] [50000] [0]).cash = [55264] ∧
    (portfolio_annuity [0] [0] [50000] [0]).equity = [17376] := by
  refine ⟨fun C E sal snp dd tail rest => ⟨rfl, rfl, rfl, rfl, rfl⟩, ?_, ?_, ?_, ?_, ?_⟩ <;>
    norm_num [portfolio_annuity, zip4, annuityLoop, STARTING_CASH, STARTING_EQUITY,
      SNP_DIV_YIELD, INTEREST_RATE, PORTFOLIO_DISTRIBUTION]

/-- C2: `monte_carlo` is deterministic — it reseeds the stream at batch
start (line 82), so for a fixed run count the produced batch is the same
list of Run records (every field of every run equal) in any two executions,
whatever ambient stream state each execution starts from. -/
theorem monte_carlo_deterministic :
    (∀ (runs : ℕ) (g1 g2 : RNG), monte_carlo runs g1 = monte_carlo runs g2) ∧
    (∀ (runs : ℕ) (g : RNG), monte_carlo runs g = monteCarloFrom (npSeed 42) 0 runs) :=
  ⟨fun _ _ _ => rfl, fun _ _ => rfl⟩

/-- C8: run 0 of a 2-run batch equals the single run of a 1-run batch from
the same seed position: with the generic stream, and in particular for
`monte_carlo`, which always starts both batches from seed 42. -/
theorem run0_independent_of_later_runs :
    (∀ (g : RNG) (i : ℕ), (monteCarloFrom g i 2).head? = (monteCarloFrom g i 1).head?) ∧
    (∀ amb1 amb2 : RNG, (monte_carlo 2 amb1).head? = (monte_carlo 1 amb2).head?) :=
  ⟨fun _ _ => rfl, fun _ _ => rfl⟩

/-- C4: a portfolio distribution whose fractions do not sum to exactly 1 is
rejected by the startup check: the whole program returns the configuration
error and no batch (not even a partial one) is produced. -/
theorem bad_distribution_fails_fast (dist : PortfolioDistribution)
    (h : dist.cash + dist.equity ≠ 1) (runs : ℕ) (ambient : RNG) :
    runProgram dist runs ambient =
      Except.error "Porftolio distribution does not sum to 1" := by
  simp [runProgram, check_distribution, h]

/-- C4 witness: the configuration `{cash: 0.4, equity: 0.5}` is rejected. -/
theorem bad_distribution_fails_fast_witness :
    ((2 : ℚ)/5 + 1/2 ≠ 1) ∧
    runProgram ⟨2/5, 1/2⟩ 3 (npSeed 0) =
      Except.error "Porftolio distribution does not sum to 1" :=
  ⟨by norm_num, bad_distribution_fails_fast ⟨2/5, 1/2⟩ (by norm_num) 3 (npSeed 0)⟩

/-- C3 counterexample: `portfolio_annuity` does not fail fast on
mismatched-length inputs — with a salary sequence of length 1 and the other
three sequences of length 2, it silently truncates: the result is exactly
the result on the inputs cut to length 1, and the output sequences have
length 1 (the second entries of the longer inputs are dropped without any
error). -/
theorem portfolio_annuity_no_length_guard :
    portfolio_annuity [0] [0, 0] [0, 0] [0, 0] = portfolio_annuity [0] [0] [0] [0] ∧
    (portfolio_annuity [0] [0, 0] [0, 0] [0, 0]).cash.length = 1 :=
  ⟨rfl, rfl⟩

/-- C3 amended: `portfolio_annuity` performs no length validation and has no
failure outcome; mismatched input sequences are silently truncated by the
`zip` on line 47 — every output sequence has length equal to the minimum of
the four input lengths. -/
theorem portfolio_annuity_truncates (s p d t : List ℚ) :
    (portfolio_annuity s p d t).cash.length =
      min (min (min s.length p.length) d.length) t.length ∧
    (portfolio_annuity s p d t).equity.length =
      min (min (min s.length p.length) d.length) t.length ∧
    (portfolio_annuity s p d t).dividend.length =
      min (min (min s.length p.length) d.length) t.length ∧
    (portfolio_annuity s p d t).interest.length =
      min (min (min s.length p.length) d.length) t.length ∧
    (portfolio_annuity s p d t).snp_return.length =
      min (min (min s.length p.length) d.length) t.length ∧
    (portfolio_annuity s p d t).tail_risk.length =
      min (min (min s.length p.length) d.length) t.length :=
  portfolio_annuity_lengths s p d t

/-- C5: every sequence field of every Run record produced by `monte_carlo`
has exactly `YEARS_REMAINING` entries. -/
theorem run_sequences_length (runs : ℕ) (amb : RNG) (r : Run)
    (hr : r ∈ monte_carlo runs amb) :
    r.year.length = YEARS_REMAINING ∧
    r.nest_egg.length = YEARS_REMAINING ∧
    r.cash_position.length = YEARS_REMAINING ∧
    r.equity_position.length = YEARS_REMAINING ∧
    r.salary.length = YEARS_REMAINING ∧
    r.salary_growth.length = YEARS_REMAINING ∧
    r.div_yield.length = YEARS_REMAINING ∧
    r.div_return.length = YEARS_REMAINING ∧
    r.snp_return.length = YEARS_REMAINING ∧
    r.snp_return_percent.length = YEARS_REMAINING ∧
    r.interest_return.length = YEARS_REMAINING ∧
    r.inflation.length = YEARS_REMAINING ∧
    r.living_expenses.length = YEARS_REMAINING ∧
    r.tail_risk.length = YEARS_REMAINING := by
  obtain ⟨j, g, rfl⟩ := mem_monteCarloFrom hr
  exact oneRun_lengths j g

/-- C5 witness: the single run of a 1-run batch has `YEARS_REMAINING`-entry
year, nest-egg and tail-risk sequences. -/
theorem run_sequences_length_witness :
    ((oneRun 0 (npSeed 42)).1).year.length = YEARS_REMAINING ∧
    ((oneRun 0 (npSeed 42)).1).nest_egg.length = YEARS_REMAINING ∧
    ((oneRun 0 (npSeed 42)).1).tail_risk.length = YEARS_REMAINING := by
  have h := run_sequences_length 1 (npSeed 42) ((oneRun 0 (npSeed 42)).1)
    (List.Mem.head _)
  exact ⟨h.1, h.2.1, h.2.2.2.2.2.2.2.2.2.2.2.2.2⟩

/-- C6: the drawdown sequence in every run is derived from that run's
inflation sequence by cumulative compounding,
`drawdown_t = fixed_expenses * prod over k = 0..t of (1 + inflation_k)`;
with inflation fixed at 0.05 for 3 years the sequence is
`[52500, 55125, 57881.25]`. -/
theorem drawdown_compounding :
    (∀ (infl : List ℚ) (t : ℕ), t < infl.length →
      (drawdownSeq infl).getD t 0 =
        FIXED_EXPENSES * ((infl.take (t + 1)).map (fun x => 1 + x)).prod) ∧
    (∀ (runs : ℕ) (amb : RNG) (r : Run), r ∈ monte_carlo runs amb →
      r.living_expenses = drawdownSeq r.inflation) ∧
    drawdownSeq [5/100, 5/100, 5/100] = [52500, 55125, 57881.25] := by
  refine ⟨fun infl t ht => ?_, fun runs amb r hr => ?_, ?_⟩
  · have h1 : t < (infl.map (fun x => 1 + x)).length := by simpa using ht
    rw [drawdownSeq, getD_map_of_lt _ _ t (by simpa [cumprod_length] using h1),
      cumprod_getD _ t h1, ← List.map_take]
    norm_num [ANNUAL_DRAWDOWN]
  · obtain ⟨j, g, rfl⟩ := mem_monteCarloFrom hr
    rfl
  · norm_num [drawdownSeq, cumprod, cumprodFrom, ANNUAL_DRAWDOWN, FIXED_EXPENSES]

/-- C6 witness: the compounding formula instantiated at year 0 of the
constant-0.05 inflation sequence. -/
theorem drawdown_compounding_witness :
    ((0 : ℕ) < ([(5 : ℚ)/100, 5/100, 5/100]).length) ∧
    (drawdownSeq [5/100, 5/100, 5/100]).getD 0 0 =
      FIXED_EXPENSES * ((([(5 : ℚ)/100, 5/100, 5/100]).take 1).map (fun x => 1 + x)).prod ∧
    ((oneRun 0 (npSeed 42)).1).living_expenses =
      drawdownSeq ((oneRun 0 (npSeed 42)).1).inflation :=
  ⟨by norm_num, drawdown_compounding.1 [5/100, 5/100, 5/100] 0 (by norm_num),
    drawdown_compounding.2.1 1 (npSeed 42) ((oneRun 0 (npSeed 42)).1) (List.Mem.head _)⟩

/-- C7: every entry of the tail-risk sequence of every run is either exactly
0 or exactly the configured `TAIL_RISK_COST` — never an intermediate value
(the cost is scaled by a 0-or-1 Bernoulli indicator). -/
theorem tail_risk_bounded (runs : ℕ) (amb : RNG) (r : Run)
    (hr : r ∈ monte_carlo runs amb) (v : ℚ) (hv : v ∈ r.tail_risk) :
    v = 0 ∨ v = TAIL_RISK_COST := by
  obtain ⟨j, g, rfl⟩ := mem_monteCarloFrom hr
  have h1 : ((oneRun j g).1).tail_risk =
      (zip4 salarySeq (snpSeq g) (drawdownSeq (inflSeq g)) (tailSeq g)).map
        (fun e => e.2.2.2) :=
    annuityLoop_tail_risk_eq _ _ _
  rw [h1] at hv
  obtain ⟨e, he, rfl⟩ := List.mem_map.mp hv
  have h2 : e.2.2.2 ∈ tailSeq g := mem_zip4_fourth he
  obtain ⟨b, hb, hbe⟩ := List.mem_map.mp h2
  rcases bernoulliDraws_mem TAIL_RISK_PROBABILITY YEARS_REMAINING (gAfterInfl g) hb with
    h | h
  · left; rw [← hbe, h, mul_zero]
  · right; rw [← hbe, h, mul_one]

/-- C7 witness: the year-1 tail-risk value of the single run of a 1-run
batch is 0 or the configured cost. -/
theorem tail_risk_bounded_witness :
    ((oneRun 0 (npSeed 42)).1).tail_risk.getD 0 0 = 0 ∨
    ((oneRun 0 (npSeed 42)).1).tail_risk.getD 0 0 = TAIL_RISK_COST := by
  apply tail_risk_bounded 1 (npSeed 42) ((oneRun 0 (npSeed 42)).1) (List.Mem.head _)
  exact getD_mem
    (by rw [(oneRun_lengths 0 (npSeed 42)).2.2.2.2.2.2.2.2.2.2.2.2.2]; decide) 0

/-- C9: the salary is a deterministic fixed-rate compounding, never
randomized: the growth-factor sequence is the constant
`1 + SALARY_GROWTH_RATE` repeated for every year,
`salary_t = after_tax_salary * (1 + salary_growth_rate)^(t+1)`, every run
carries exactly these sequences, and any two runs of a batch have the
identical salary sequence. -/
theorem salary_fixed_compounding :
    salaryGrowthSeq = List.replicate YEARS_REMAINING (1 + SALARY_GROWTH_RATE) ∧
    (∀ t : ℕ, t < YEARS_REMAINING →
      salarySeq.getD t 0 = AFTER_TAX_SALARY * (1 + SALARY_GROWTH_RATE) ^ (t + 1)) ∧
    (∀ (runs : ℕ) (amb : RNG) (r : Run), r ∈ monte_carlo runs amb →
      r.salary = salarySeq ∧ r.salary_growth = salaryGrowthSeq) ∧
    (∀ (runs : ℕ) (amb : RNG) (r r' : Run), r ∈ monte_carlo runs amb →
      r' ∈ monte_carlo runs amb → r.salary = r'.salary) := by
  refine ⟨rfl, fun t ht => ?_, fun runs amb r hr => ?_, fun runs amb r r' hr hr' => ?_⟩
  · rw [salarySeq,
      getD_map_of_lt _ _ t (by rw [cumprod_length, salaryGrowthSeq_length]; exact ht),
      cumprod_getD _ t (by rw [salaryGrowthSeq_length]; exact ht), salaryGrowthSeq,
      List.take_replicate, List.prod_replicate, min_eq_left (by omega)]
  · obtain ⟨j, g, rfl⟩ := mem_monteCarloFrom hr
    exact ⟨rfl, rfl⟩
  · obtain ⟨j, g, rfl⟩ := mem_monteCarloFrom hr
    obtain ⟨j', g', rfl⟩ := mem_monteCarloFrom hr'
    rfl

/-- C9 witness: the formula at year 0, and the single run of a 1-run batch
carrying exactly the fixed salary sequence. -/
theorem salary_fixed_compounding_witness :
    ((0 : ℕ) < YEARS_REMAINING) ∧
    salarySeq.getD 0 0 = AFTER_TAX_SALARY * (1 + SALARY_GROWTH_RATE) ^ (0 + 1) ∧
    ((oneRun 0 (npSeed 42)).1).salary = salarySeq ∧
    ((oneRun 0 (npSeed 42)).1).salary = ((oneRun 1 (oneRun 0 (npSeed 42)).2).1).salary :=
  ⟨by decide, salary_fixed_compounding.2.1 0 (by decide),
    (salary_fixed_compounding.2.2.1 1 (npSeed 42) ((oneRun 0 (npSeed 42)).1)
      (List.Mem.head _)).1,
    salary_fixed_compounding.2.2.2 2 (npSeed 42) ((oneRun 0 (npSeed 42)).1)
      ((oneRun 1 (oneRun 0 (npSeed 42)).2).1) (List.Mem.head _)
      (List.Mem.tail _ (List.Mem.head _))⟩

/-- C10: because the cash and equity fractions sum to 1, the nest egg
(cash + equity) obeys the simpler recurrence
`net_worth_t = net_worth_(t-1) + capital_return_t + net_distribution_t`
exactly: for index-aligned inputs of horizon length, year 0 adds to the
starting balances and every later year adds to the prior year's nest egg
its capital return plus its net distribution. -/
theorem nest_egg_conservation (s p d t : List ℚ)
    (hs : s.length = YEARS_REMAINING) (hp : p.length = YEARS_REMAINING)
    (hd : d.length = YEARS_REMAINING) (ht : t.length = YEARS_REMAINING) :
    (PORTFOLIO_DISTRIBUTION.cash + PORTFOLIO_DISTRIBUTION.equity = 1) ∧
    ((portfolio_annuity s p d t).cash.getD 0 0 +
        (portfolio_annuity s p d t).equity.getD 0 0 =
      STARTING_CASH + STARTING_EQUITY +
        (portfolio_annuity s p d t).snp_return.getD 0 0 +
        (s.getD 0 0 + (portfolio_annuity s p d t).dividend.getD 0 0 +
          (portfolio_annuity s p d t).interest.getD 0 0 -
          t.getD 0 0 - d.getD 0 0)) ∧
    (∀ k : ℕ, k + 1 < YEARS_REMAINING →
      (portfolio_annuity s p d t).cash.getD (k + 1) 0 +
          (portfolio_annuity s p d t).equity.getD (k + 1) 0 =
        ((portfolio_annuity s p d t).cash.getD k 0 +
          (portfolio_annuity s p d t).equity.getD k 0) +
          (portfolio_annuity s p d t).snp_return.getD (k + 1) 0 +
          (s.getD (k + 1) 0 + (portfolio_annuity s p d t).dividend.getD (k + 1) 0 +
            (portfolio_annuity s p d t).interest.getD (k + 1) 0 -
            t.getD (k + 1) 0 - d.getD (k + 1) 0)) := by
  have hY : YEARS_REMAINING = 85 := rfl
  have hlen : (zip4 s p d t).length = YEARS_REMAINING := by
    rw [zip4_length, hs, hp, hd, ht]; simp
  refine ⟨by norm_num [PORTFOLIO_DISTRIBUTION], ?_, fun k hk => ?_⟩
  · cases hz : zip4 s p d t with
    | nil => rw [hz] at hlen; exact absurd hlen.symm (by decide)
    | cons x zl =>
      have hx : x = (s.getD 0 0, p.getD 0 0, d.getD 0 0, t.getD 0 0) := by
        have h0 := zip4_getD s p d t 0 (by omega) (by omega) (by omega) (by omega)
        rw [hz] at h0
        simpa using h0
      have hhead := annuityLoop_nest_head STARTING_CASH STARTING_EQUITY x zl
      have h1 : s.getD 0 0 = x.1 := by simp [hx]
      have h2 : d.getD 0 0 = x.2.2.1 := by simp [hx]
      have h3 : t.getD 0 0 = x.2.2.2 := by simp [hx]
      simp only [portfolio_annuity, hz, h1, h2, h3]
      exact hhead
  · have hstep := annuityLoop_nest_step (zip4 s p d t) STARTING_CASH STARTING_EQUITY k
      (by omega)
    rw [zip4_getD s p d t (k + 1) (by omega) (by omega) (by omega) (by omega)] at hstep
    simp only [portfolio_annuity]
    simpa using hstep

/-- C10 witness: the year-0 and year-1 conservation identities on the
all-zero horizon scenario. -/
theorem nest_egg_conservation_witness :
    (zeroSeq.length = YEARS_REMAINING) ∧
    ((portfolio_annuity zeroSeq zeroSeq zeroSeq zeroSeq).cash.getD 0 0 +
        (portfolio_annuity zeroSeq zeroSeq zeroSeq zeroSeq).equity.getD 0 0 =
      STARTING_CASH + STARTING_EQUITY +
        (portfolio_annuity zeroSeq zeroSeq zeroSeq zeroSeq).snp_return.getD 0 0 +
        (zeroSeq.getD 0 0 +
          (portfolio_annuity zeroSeq zeroSeq zeroSeq zeroSeq).dividend.getD 0 0 +
          (portfolio_annuity zeroSeq zeroSeq zeroSeq zeroSeq).interest.getD 0 0 -
          zeroSeq.getD 0 0 - zeroSeq.getD 0 0)) ∧
    ((portfolio_annuity zeroSeq zeroSeq zeroSeq zeroSeq).cash.getD 1 0 +
        (portfolio_annuity zeroSeq zeroSeq zeroSeq zeroSeq).equity.getD 1 0 =
      ((portfolio_annuity zeroSeq zeroSeq zeroSeq zeroSeq).cash.getD 0 0 +
        (portfolio_annuity zeroSeq zeroSeq zeroSeq zeroSeq).equity.getD 0 0) +
        (portfolio_annuity zeroSeq zeroSeq zeroSeq zeroSeq).snp_return.getD 1 0 +
        (zeroSeq.getD 1 0 +
          (portfolio_annuity zeroSeq zeroSeq zeroSeq zeroSeq).dividend.getD 1 0 +
          (portfolio_annuity zeroSeq zeroSeq zeroSeq zeroSeq).interest.getD 1 0 -
          zeroSeq.getD 1 0 - zeroSeq.getD 1 0)) :=
  ⟨by simp [zeroSeq],
    (nest_egg_conservation zeroSeq zeroSeq zeroSeq zeroSeq (by simp [zeroSeq])
      (by simp [zeroSeq]) (by simp [zeroSeq]) (by simp [zeroSeq])).2.1,
    (nest_egg_conservation zeroSeq zeroSeq zeroSeq zeroSeq (by simp [zeroSeq])
      (by simp [zeroSeq]) (by simp [zeroSeq]) (by simp [zeroSeq])).2.2 0 (by decide)⟩

end Nestegg
